import Mathlib

/-!
Verification of the nsot data model (`nsot/models.py`).

The Python source is shallowly embedded here:

* `NetworkRow` / `DB` model one row of the `networks` table and the table
  itself; packed `VARBINARY` addresses are represented by their numeric
  value (`Nat`), which is order-isomorphic to the bytewise comparison the
  store performs because every address comparison in the source is guarded
  by an `ip_version` equality filter, so only equal-width packed values are
  ever compared.
* `ip_network` models the behaviour of the stdlib call
  `ipaddress.ip_network` for the IPv4 textual family used by the source
  (dotted quad plus prefix, strict host-bit checking); IPv6 textual parsing
  is not modelled and such inputs are rejected.
* `json_dumps` / `json_loads` model the stdlib `json.dumps` / `json.loads`
  calls on the flat string-to-string objects that the `attributes` property
  stores (same escape discipline for quote, backslash, and control
  characters; non-ASCII characters are carried literally, which differs
  from `ensure_ascii=True` only in the textual representation, not in the
  decoded value).
* `Network.supernets`, `Network.reparent_subnets` and `Network.create`
  are direct translations of the corresponding methods; `for_update` row
  locking has no observable effect in this sequential model and is kept as
  an ignored argument.
* `OrmSession` models the restricted `Session` class, and
  `flush_transaction` models the decorator of the same name over a
  three-level session state (committed / flushed / dirty).
-/

/-- Python exception values observed by the model. -/
inductive PyErr where
  | typeError (msg : String)
  | valueError (msg : String)
  | integrityError (msg : String)
  | notImplementedError (msg : String)
  | attributeError (msg : String)
deriving DecidableEq

/-- Dynamically-typed Python values, as far as the attribute setter needs
to distinguish them (`basestring` vs anything else, `dict` vs anything
else). -/
inductive PyValue where
  | str (s : String)
  | int (n : Int)
  | bool (b : Bool)
  | dict (kvs : List (PyValue × PyValue))
  | list (xs : List PyValue)
  | none

/-- One row of the `networks` table.  `_attributes` is the serialized
text blob behind the `attributes` property. -/
structure NetworkRow where
  id : Nat
  site_id : Nat
  ip_version : String
  parent_id : Option Nat
  network_address : Nat
  broadcast_address : Nat
  prefix_length : Nat
  is_ip : Bool
  _attributes : String
deriving DecidableEq

/-- The committed `networks` table plus the primary-key counter the store
hands out at flush time. -/
structure DB where
  rows : List NetworkRow
  nextId : Nat
deriving DecidableEq

/-! ## JSON codec (model of the stdlib `json.dumps` / `json.loads` calls
used by the `attributes` property, restricted to flat string-to-string
objects, the only shape the property ever stores). -/

/-- The `\x7b` character (left curly brace). -/
def leftBrace : Char := Char.ofNat 123

/-- The `\x7d` character (right curly brace). -/
def rightBrace : Char := Char.ofNat 125

/-- Lower-case hexadecimal digit, as emitted by `json.dumps` in `\uXXXX`
escapes. -/
def hexDigitChar (n : Nat) : Char :=
  if n < 10 then Char.ofNat (48 + n) else Char.ofNat (87 + n)

/-- Escape one character of a JSON string the way `json.dumps` does:
quote and backslash get a backslash escape, the five classic control
characters get their short escapes, the remaining control characters get
`\u00XX`, everything else is carried literally. -/
def escapeChar (c : Char) : List Char :=
  if c = '"' then ['\\', '"']
  else if c = '\\' then ['\\', '\\']
  else if c = Char.ofNat 8 then ['\\', 'b']
  else if c = Char.ofNat 9 then ['\\', 't']
  else if c = Char.ofNat 10 then ['\\', 'n']
  else if c = Char.ofNat 12 then ['\\', 'f']
  else if c = Char.ofNat 13 then ['\\', 'r']
  else if c.toNat < 32 then
    ['\\', 'u', '0', '0', hexDigitChar (c.toNat / 16), hexDigitChar (c.toNat % 16)]
  else [c]

/-- Escape every character of a string body. -/
def escapeChars : List Char → List Char
  | [] => []
  | c :: rest => escapeChar c ++ escapeChars rest

/-- A JSON string literal: opening quote, escaped body, closing quote. -/
def encodeJString (s : String) : List Char :=
  '"' :: (escapeChars s.data ++ ['"'])

/-- One `"key": "value"` member (the default `json.dumps` key separator
is `": "`). -/
def memberChars (kv : String × String) : List Char :=
  encodeJString kv.1 ++ ':' :: ' ' :: encodeJString kv.2

/-- All members, joined by the default `json.dumps` item separator `", "`. -/
def membersChars : List (String × String) → List Char
  | [] => []
  | [kv] => memberChars kv
  | kv :: rest => memberChars kv ++ ',' :: ' ' :: membersChars rest

/-- Characters of the serialized object. -/
def json_dumps_chars (pairs : List (String × String)) : List Char :=
  leftBrace :: (membersChars pairs ++ [rightBrace])

/-- Model of `json.dumps` on a string-to-string mapping (members in dict
iteration order, which the list order represents). -/
def json_dumps (pairs : List (String × String)) : String :=
  String.mk (json_dumps_chars pairs)

/-- Value of a hexadecimal digit character, as accepted by `json.loads`. -/
def hexVal (c : Char) : Option Nat :=
  if '0' ≤ c ∧ c ≤ '9' then some (c.toNat - 48)
  else if 'a' ≤ c ∧ c ≤ 'f' then some (c.toNat - 87)
  else if 'A' ≤ c ∧ c ≤ 'F' then some (c.toNat - 55)
  else Option.none

/-- Skip JSON whitespace (space, tab, newline, carriage return). -/
def skipWS : List Char → List Char
  | [] => []
  | c :: rest =>
    if c = ' ' || c = Char.ofNat 9 || c = Char.ofNat 10 || c = Char.ofNat 13 then
      skipWS rest
    else c :: rest

/-- Parse the body of a JSON string (after the opening quote), returning
the decoded characters and the input remaining after the closing quote.
Unescaped control characters are rejected, as `json.loads` does in its
default strict mode. -/
def parseStringBody : List Char → Option (List Char × List Char)
  | [] => Option.none
  | c :: rest =>
    if c = '"' then some ([], rest)
    else if c = '\\' then
      match rest with
      | [] => Option.none
      | e :: rest2 =>
        if e = '"' then (parseStringBody rest2).map (fun p => ('"' :: p.1, p.2))
        else if e = '\\' then (parseStringBody rest2).map (fun p => ('\\' :: p.1, p.2))
        else if e = '/' then (parseStringBody rest2).map (fun p => ('/' :: p.1, p.2))
        else if e = 'b' then (parseStringBody rest2).map (fun p => (Char.ofNat 8 :: p.1, p.2))
        else if e = 't' then (parseStringBody rest2).map (fun p => (Char.ofNat 9 :: p.1, p.2))
        else if e = 'n' then (parseStringBody rest2).map (fun p => (Char.ofNat 10 :: p.1, p.2))
        else if e = 'f' then (parseStringBody rest2).map (fun p => (Char.ofNat 12 :: p.1, p.2))
        else if e = 'r' then (parseStringBody rest2).map (fun p => (Char.ofNat 13 :: p.1, p.2))
        else if e = 'u' then
          match rest2 with
          | h1 :: h2 :: h3 :: h4 :: rest3 =>
            match hexVal h1, hexVal h2, hexVal h3, hexVal h4 with
            | some a, some b, some c2, some d =>
              (parseStringBody rest3).map
                (fun p => (Char.ofNat (4096 * a + 256 * b + 16 * c2 + d) :: p.1, p.2))
            | _, _, _, _ => Option.none
          | _ => Option.none
        else Option.none
    else if c.toNat < 32 then Option.none
    else (parseStringBody rest).map (fun p => (c :: p.1, p.2))

/-- Parse a JSON string literal, allowing leading whitespace. -/
def parseJString (l : List Char) : Option (String × List Char) :=
  match skipWS l with
  | c :: r => if c = '"' then (parseStringBody r).map (fun p => (String.mk p.1, p.2)) else Option.none
  | [] => Option.none

/-- Parse the (nonempty) member list of a JSON object, up to and including
the closing brace.  The fuel argument bounds the recursion by the length
of the finite input; `json_loads` supplies the input length, which always
suffices because every member consumes at least one character. -/
def parseMembersF : Nat → List Char → Option (List (String × String) × List Char)
  | 0, _ => Option.none
  | fuel + 1, l =>
    match parseJString l with
    | Option.none => Option.none
    | some (k, r1) =>
      match skipWS r1 with
      | c :: r2 =>
        if c = ':' then
          match parseJString r2 with
          | Option.none => Option.none
          | some (v, r3) =>
            match skipWS r3 with
            | c2 :: r4 =>
              if c2 = ',' then
                match parseMembersF fuel r4 with
                | some (ps, rest) => some ((k, v) :: ps, rest)
                | Option.none => Option.none
              else if c2 = rightBrace then some ([(k, v)], r4)
              else Option.none
            | [] => Option.none
        else Option.none
      | [] => Option.none

/-- Parse a JSON object of string-to-string members. -/
def parseObject (l : List Char) : Option (List (String × String) × List Char) :=
  match skipWS l with
  | c :: r =>
    if c = leftBrace then
      match skipWS r with
      | c2 :: r2 =>
        if c2 = rightBrace then some ([], r2)
        else parseMembersF (c2 :: r2).length (c2 :: r2)
      | [] => Option.none
    else Option.none
  | [] => Option.none

/-- Model of `json.loads` on the blobs the attribute setter writes: a
string-to-string object with nothing but whitespace around it. -/
def json_loads (s : String) : Option (List (String × String)) :=
  match parseObject s.data with
  | some (ps, rest) => if skipWS rest = [] then some ps else Option.none
  | Option.none => Option.none

/-! ## The `attributes` property (models.py lines 144-159). -/

/-- The validation loop of the attribute setter: iterate the items in
order, reject the first non-string key with a `ValueError`, then the
first non-string value with a `ValueError`. -/
def validateAttributes : List (PyValue × PyValue) → Except PyErr (List (String × String))
  | [] => Except.ok []
  | (PyValue.str k, PyValue.str v) :: rest =>
    (validateAttributes rest).map (fun t => (k, v) :: t)
  | (PyValue.str _, _) :: _ =>
    Except.error (PyErr.valueError "Attribute values must be a string type")
  | _ => Except.error (PyErr.valueError "Attribute keys must be a string type")

/-- The `attributes` property setter: `TypeError` unless given a dict,
`ValueError` unless every key and value is a string, otherwise the
serialized blob that gets stored in `_attributes`. -/
def Network.setAttributes (v : PyValue) : Except PyErr String :=
  match v with
  | PyValue.dict kvs => (validateAttributes kvs).map json_dumps
  | _ => Except.error (PyErr.typeError "Expected dict.")

/-- The `attributes` property getter: deserialize the stored blob. -/
def Network.getAttributes (self : NetworkRow) : Option (List (String × String)) :=
  json_loads self._attributes

/-! ## IPv4 CIDR parsing (model of the stdlib `ipaddress.ip_network` call
in `Network.create`, for the IPv4 textual family; `strict=True` host-bit
checking included). -/

/-- Split a character list on a separator character. -/
def splitOnChar (sep : Char) : List Char → List (List Char)
  | [] => [[]]
  | c :: rest =>
    let r := splitOnChar sep rest
    if c = sep then [] :: r
    else
      match r with
      | [] => [[c]]
      | h :: t => (c :: h) :: t

/-- Parse a decimal numeral of at most `maxLen` digits. -/
def parseDecimal (maxLen : Nat) (cs : List Char) : Option Nat :=
  if cs = [] ∨ maxLen < cs.length then Option.none
  else if cs.all (fun c => '0' ≤ c ∧ c ≤ '9') then
    some (cs.foldl (fun acc c => 10 * acc + (c.toNat - 48)) 0)
  else Option.none

/-- Parse a dotted-quad IPv4 address into its 32-bit numeric value. -/
def parseIPv4 (cs : List Char) : Option Nat :=
  match (splitOnChar '.' cs).mapM (parseDecimal 3) with
  | some [a, b, c, d] =>
    if a ≤ 255 ∧ b ≤ 255 ∧ c ≤ 255 ∧ d ≤ 255 then
      some (16777216 * a + 65536 * b + 256 * c + d)
    else Option.none
  | _ => Option.none

/-- The fields of an `ipaddress` network object that `Network.create`
reads: version, packed range bounds (as numeric values), prefix length. -/
structure IPNetwork where
  version : Nat
  network_address : Nat
  broadcast_address : Nat
  prefixlen : Nat
deriving DecidableEq

/-- Model of `ipaddress.ip_network` for IPv4 text: `a.b.c.d/p` (or a bare
address, meaning `/32`), rejecting set host bits as `strict=True` does. -/
def ip_network (s : String) : Option IPNetwork :=
  match splitOnChar '/' s.data with
  | [addr] => (parseIPv4 addr).map (fun a => ⟨4, a, a, 32⟩)
  | [addr, pfx] =>
    match parseIPv4 addr, parseDecimal 2 pfx with
    | some a, some p =>
      if p ≤ 32 ∧ a % 2 ^ (32 - p) = 0 then
        some ⟨4, a, a + (2 ^ (32 - p) - 1), p⟩
      else Option.none
    | _, _ => Option.none
  | _ => Option.none

/-! ## Hierarchy queries (models.py lines 161-252). -/

/-- The row filter of the non-direct (discover) supernet query: non-address
rows of the same ip_version with strictly smaller prefix whose range
contains this row's range.  Note: the source places no `site_id` filter
here. -/
def supernetsFilter (self n : NetworkRow) : Bool :=
  n.is_ip == false && n.ip_version == self.ip_version &&
  n.prefix_length < self.prefix_length &&
  n.network_address ≤ self.network_address &&
  self.broadcast_address ≤ n.broadcast_address

/-- `Network.supernets(session, direct, discover_mode, for_update)`.
Row locking (`for_update`) has no observable effect in this sequential
model; the argument is kept to mirror the signature. -/
def Network.supernets (rows : List NetworkRow) (self : NetworkRow)
    (direct discover_mode for_update : Bool) : Except PyErr (List NetworkRow) :=
  if self.parent_id == Option.none && !discover_mode then Except.ok []
  else if discover_mode && direct then
    Except.error (PyErr.valueError "direct is incompatible with discover_mode")
  else if direct then
    Except.ok (rows.filter (fun n => some n.id == self.parent_id))
  else
    Except.ok (rows.filter (supernetsFilter self))

/-- The row filter of `reparent_subnets`: rows sharing this row's
parent_id (excluding itself); when this row is a root the query is
additionally limited to non-address rows of the same ip_version with
strictly greater prefix and fully contained range. -/
def reparentFilter (self n : NetworkRow) : Bool :=
  n.parent_id == self.parent_id && n.id != self.id &&
  (if self.parent_id == Option.none then
     n.is_ip == false && n.ip_version == self.ip_version &&
     self.prefix_length < n.prefix_length &&
     self.network_address ≤ n.network_address &&
     n.broadcast_address ≤ self.broadcast_address
   else true)

/-- `Network.reparent_subnets(session)`: bulk-update every matching row's
parent_id to this row's id. -/
def Network.reparent_subnets (rows : List NetworkRow) (self : NetworkRow) : List NetworkRow :=
  rows.map (fun n => if reparentFilter self n then { n with parent_id := some self.id } else n)

/-- Python's `max(candidates, key=attrgetter("prefix_length"))`: the first
candidate with the largest key wins. -/
def maxByPrefixLength (best : NetworkRow) : List NetworkRow → NetworkRow
  | [] => best
  | n :: rest => maxByPrefixLength (if best.prefix_length < n.prefix_length then n else best) rest

/-- The `cidr_idx` unique constraint on
(site_id, ip_version, network_address, prefix_length), checked by the
store when the new row is flushed. -/
def cidrUnique (rows : List NetworkRow) (r : NetworkRow) : Bool :=
  rows.all (fun m =>
    !(m.site_id == r.site_id && m.ip_version == r.ip_version &&
      m.network_address == r.network_address && m.prefix_length == r.prefix_length))

/-- `Network.create(session, site_id, cidr, attributes=None)`: parse the
CIDR, build and register the row (running the attribute setter), flush to
obtain a primary key (where the unique constraint can fire), discover
enclosing supernets, adopt the tightest one as parent, re-thread the
tree, and commit; on any failure the transaction is rolled back, so the
pre-call committed state is returned together with the exception. -/
def Network.create (db : DB) (site_id : Nat) (cidr : String)
    (attributes : Option PyValue) : DB × Except PyErr NetworkRow :=
  let attrs := match attributes with
    | Option.none => PyValue.dict []
    | some a => a
  match ip_network cidr with
  | Option.none => (db, Except.error (PyErr.valueError "does not appear to be an IPv4 or IPv6 network"))
  | some net =>
    match Network.setAttributes attrs with
    | Except.error e => (db, Except.error e)
    | Except.ok blob =>
      let obj0 : NetworkRow :=
        { id := db.nextId
          site_id := site_id
          ip_version := toString net.version
          parent_id := Option.none
          network_address := net.network_address
          broadcast_address := net.broadcast_address
          prefix_length := net.prefixlen
          is_ip := net.network_address == net.broadcast_address
          _attributes := blob }
      if cidrUnique db.rows obj0 then
        let txn0 := db.rows ++ [obj0]
        match Network.supernets txn0 obj0 false true true with
        | Except.error e => (db, Except.error e)
        | Except.ok sups =>
          match sups with
          | [] =>
            ({ rows := Network.reparent_subnets txn0 obj0, nextId := db.nextId + 1 },
             Except.ok obj0)
          | s :: ss =>
            let obj1 := { obj0 with parent_id := some (maxByPrefixLength s ss).id }
            let txn1 := txn0.map (fun n => if n.id == obj1.id then obj1 else n)
            ({ rows := Network.reparent_subnets txn1 obj1, nextId := db.nextId + 1 },
             Except.ok obj1)
      else (db, Except.error (PyErr.integrityError "UNIQUE constraint failed: cidr_idx"))

/-- An empty store whose first flushed row will get primary key 1. -/
def db0 : DB := ⟨[], 1⟩

/-- Run a sequence of `Network.create` calls, keeping the committed state
of each (successful or rolled-back) step. -/
def createSeq (db : DB) (l : List (Nat × String)) : DB :=
  l.foldl (fun d sc => (Network.create d sc.1 sc.2 Option.none).1) db

/-! ## The restricted session (models.py lines 22-40). -/

/-- The unit-of-work state the restricted session carries: the list of
registered new instances. -/
structure OrmSession where
  registered : List NetworkRow
deriving DecidableEq

/-- `_Session.add`, saved as `Session._add`: the base registration
primitive used by `Model.add`. -/
def OrmSession.base_add (s : OrmSession) (obj : NetworkRow) : OrmSession :=
  { registered := s.registered ++ [obj] }

/-- The overridden `Session.add`: always raises, registers nothing. -/
def OrmSession.add (s : OrmSession) (args : List PyValue)
    (kwargs : List (String × PyValue)) : OrmSession × Except PyErr Unit :=
  (s, Except.error (PyErr.notImplementedError "Use add method on models instead."))

/-- The overridden `Session.add_all`: always raises, registers nothing. -/
def OrmSession.add_all (s : OrmSession) (args : List PyValue)
    (kwargs : List (String × PyValue)) : OrmSession × Except PyErr Unit :=
  (s, Except.error (PyErr.notImplementedError "Use add method on models instead."))

/-- `Model.add(session)`: register through the otherwise-disabled base
primitive and return the instance. -/
def Model.add (self : NetworkRow) (s : OrmSession) : OrmSession × NetworkRow :=
  (s.base_add self, self)

/-! ## The `flush_transaction` decorator (models.py lines 73-89). -/

/-- A session over store state `σ`: the durably committed state, the
state written inside the open transaction (flushed), and the state as
seen through the unit of work including not-yet-flushed changes (dirty). -/
structure DbSession (σ : Type) where
  committed : σ
  flushed : σ
  dirty : σ
deriving DecidableEq

/-- `session.rollback()`: discard flushed and pending changes. -/
def DbSession.rollback {σ : Type} (s : DbSession σ) : DbSession σ :=
  ⟨s.committed, s.committed, s.committed⟩

/-- `session.flush()`: write pending changes into the open transaction;
the store may reject them (constraint violation), modelled by the
`canFlush` predicate. -/
def DbSession.flush {σ : Type} (canFlush : σ → Bool) (s : DbSession σ) :
    Except PyErr (DbSession σ) :=
  if canFlush s.dirty then Except.ok ⟨s.committed, s.dirty, s.dirty⟩
  else Except.error (PyErr.integrityError "constraint violated on flush")

/-- The `flush_transaction` decorator: run the wrapped method; on success
roll back if `dryrun` was passed, otherwise flush; on any exception roll
the session back (when one is available) and re-raise it unchanged.  The
wrapped method threads the (possibly absent) session state and either
returns a value or raises. -/
def flush_transaction {σ α : Type} (canFlush : σ → Bool)
    (method : Option (DbSession σ) → Option (DbSession σ) × Except PyErr α)
    (dryrun : Bool) (session : Option (DbSession σ)) :
    Option (DbSession σ) × Except PyErr α :=
  match method session with
  | (Option.none, Except.error e) => (Option.none, Except.error e)
  | (some st, Except.error e) => (some st.rollback, Except.error e)
  | (Option.none, Except.ok _) =>
    (Option.none, Except.error (PyErr.attributeError "NoneType object has no such attribute"))
  | (some st, Except.ok ret) =>
    if dryrun then (some st.rollback, Except.ok ret)
    else
      match DbSession.flush canFlush st with
      | Except.ok st2 => (some st2, Except.ok ret)
      | Except.error e => (some st.rollback, Except.error e)

/-! ## Concrete rows used by the scenario theorems below. -/

/-- `10.0.0.0/8` in site 1, a root, as `Network.create` stores it. -/
def net8Site1 : NetworkRow :=
  ⟨1, 1, "4", Option.none, 167772160, 184549375, 8, false, "\x7b\x7d"⟩

/-- `10.0.0.0/24` in site 2, before any parent is assigned. -/
def net24Site2 : NetworkRow :=
  ⟨2, 2, "4", Option.none, 167772160, 167772415, 24, false, "\x7b\x7d"⟩

/-- `10.0.0.1/32` in site 1, a single address created as a root. -/
def addr32Site1 : NetworkRow :=
  ⟨1, 1, "4", Option.none, 167772161, 167772161, 32, true, "\x7b\x7d"⟩

/-- `10.0.0.0/16` in site 1 with the `10.0.0.0/8` row (id 1) as parent,
as `Network.create` stores it when inserted after the /8. -/
def net16Site1 : NetworkRow :=
  ⟨2, 1, "4", some 1, 167772160, 167837695, 16, false, "\x7b\x7d"⟩

/-! ## Theorems. -/

/-- C9: the transactional session's generic `add` and `add_all` operations
always fail with a NotImplemented-style error directing the caller to the
entity-level add operation, and never register the record: the session
state is returned unchanged, whatever the arguments. -/
theorem session_generic_add_disabled (s : OrmSession) (args : List PyValue)
    (kwargs : List (String × PyValue)) :
    OrmSession.add s args kwargs
      = (s, Except.error (PyErr.notImplementedError "Use add method on models instead."))
    ∧ OrmSession.add_all s args kwargs
      = (s, Except.error (PyErr.notImplementedError "Use add method on models instead.")) :=
  ⟨rfl, rfl⟩

/-- C8: `flush_transaction` wrapper semantics.  If the wrapped method
raises, the session (when available) is rolled back and the original
exception is re-raised unchanged; if it succeeds under `dryrun` the
session is rolled back and the method's return value is returned; if it
succeeds without `dryrun` the pending changes are flushed and the return
value is returned. -/
theorem flush_transaction_semantics {σ α : Type} (canFlush : σ → Bool)
    (method : Option (DbSession σ) → Option (DbSession σ) × Except PyErr α)
    (dryrun : Bool) (session : Option (DbSession σ)) :
    (∀ st e, method session = (some st, Except.error e) →
       flush_transaction canFlush method dryrun session = (some st.rollback, Except.error e)
       ∧ st.rollback.flushed = st.committed ∧ st.rollback.dirty = st.committed)
    ∧ (∀ e, method session = (Option.none, Except.error e) →
       flush_transaction canFlush method dryrun session = (Option.none, Except.error e))
    ∧ (∀ st a, method session = (some st, Except.ok a) → dryrun = true →
       flush_transaction canFlush method dryrun session = (some st.rollback, Except.ok a))
    ∧ (∀ st a, method session = (some st, Except.ok a) → dryrun = false →
       canFlush st.dirty = true →
       flush_transaction canFlush method dryrun session
         = (some ⟨st.committed, st.dirty, st.dirty⟩, Except.ok a)) := by
  refine ⟨fun st e hm => ?_, fun e hm => ?_, fun st a hm hd => ?_, fun st a hm hd hcf => ?_⟩
  · exact ⟨by simp [flush_transaction, hm], rfl, rfl⟩
  · simp [flush_transaction, hm]
  · simp [flush_transaction, hm, hd]
  · simp [flush_transaction, hm, hd, DbSession.flush, hcf]

/-- Witness for C8 at concrete inputs: a successful method with pending
change 1 gets flushed; a failing method leaves the rolled-back session
and propagates its exception. -/
theorem flush_transaction_semantics_witness :
    flush_transaction (fun _ => true) (fun s => (s, Except.ok 7)) false
        (some (⟨0, 0, 1⟩ : DbSession Nat))
      = (some ⟨0, 1, 1⟩, Except.ok 7)
    ∧ flush_transaction (fun _ => true)
        (fun s => (s, (Except.error (PyErr.valueError "boom") : Except PyErr Nat))) false
        (some (⟨0, 0, 1⟩ : DbSession Nat))
      = (some ⟨0, 0, 0⟩, Except.error (PyErr.valueError "boom")) :=
  ⟨(flush_transaction_semantics (fun _ => true) (fun s => (s, Except.ok 7)) false
      (some ⟨0, 0, 1⟩)).2.2.2 ⟨0, 0, 1⟩ 7 rfl rfl rfl,
   ((flush_transaction_semantics (fun _ => true)
      (fun s => (s, (Except.error (PyErr.valueError "boom") : Except PyErr Nat))) false
      (some ⟨0, 0, 1⟩)).1 ⟨0, 0, 1⟩ (PyErr.valueError "boom") rfl).1⟩

/-- C2: insertion order does not change the final tree shape for
`10.0.0.0/24` and `10.0.0.0/8`: in both creation orders the /24 row ends
with `parent_id` equal to the /8 row's id. -/
theorem create_order_independence :
    (∃ n24 ∈ (createSeq db0 [(1, "10.0.0.0/24"), (1, "10.0.0.0/8")]).rows,
      ∃ n8 ∈ (createSeq db0 [(1, "10.0.0.0/24"), (1, "10.0.0.0/8")]).rows,
        n24.prefix_length = 24 ∧ n8.prefix_length = 8 ∧ n24.parent_id = some n8.id)
    ∧ (∃ n24 ∈ (createSeq db0 [(1, "10.0.0.0/8"), (1, "10.0.0.0/24")]).rows,
      ∃ n8 ∈ (createSeq db0 [(1, "10.0.0.0/8"), (1, "10.0.0.0/24")]).rows,
        n24.prefix_length = 24 ∧ n8.prefix_length = 8 ∧ n24.parent_id = some n8.id) := by
  decide

/-- C1 fails on the code: after successfully creating `10.0.0.0/8`,
`10.1.2.0/24`, and `10.1.1.0/24`, the `10.1.2.0/24` row's parent is the
`10.1.1.0/24` row, whose range does not contain it and whose
prefix_length is not strictly smaller — `reparent_subnets` re-points all
same-parent siblings without any range check when the new row has a
parent. -/
theorem create_violates_parent_containment :
    ∃ c ∈ (createSeq db0 [(1, "10.0.0.0/8"), (1, "10.1.2.0/24"), (1, "10.1.1.0/24")]).rows,
      ∃ p ∈ (createSeq db0 [(1, "10.0.0.0/8"), (1, "10.1.2.0/24"), (1, "10.1.1.0/24")]).rows,
        c.parent_id = some p.id ∧
        ¬(p.prefix_length < c.prefix_length ∧ p.network_address ≤ c.network_address ∧
          c.broadcast_address ≤ p.broadcast_address) := by
  decide

/-- C3 fails on the code: the discover-mode supernet query has no
`site_id` filter, so a `10.0.0.0/24` in site 2 sees the site-1
`10.0.0.0/8` as a supernet, and `Network.create` then adopts it as the
parent across sites. -/
theorem supernets_ignore_site :
    (Network.supernets [net8Site1, net24Site2] net24Site2 false true true
       = Except.ok [net8Site1])
    ∧ net8Site1.site_id ≠ net24Site2.site_id
    ∧ (∃ c ∈ (createSeq db0 [(1, "10.0.0.0/8"), (2, "10.0.0.0/24")]).rows,
       ∃ p ∈ (createSeq db0 [(1, "10.0.0.0/8"), (2, "10.0.0.0/24")]).rows,
         c.site_id = 2 ∧ p.site_id = 1 ∧ c.parent_id = some p.id) :=
  ⟨rfl, by decide, by decide⟩

/-- `maxByPrefixLength best l` is one of `best :: l`. -/
theorem maxByPrefixLength_mem (l : List NetworkRow) : ∀ best, maxByPrefixLength best l ∈ best :: l := by
  induction l with
  | nil => intro best; simp [maxByPrefixLength]
  | cons n rest ih =>
    intro best
    have h := ih (if best.prefix_length < n.prefix_length then n else best)
    rw [maxByPrefixLength]
    rcases List.mem_cons.mp h with h1 | h1
    · rw [h1]
      split <;> simp
    · simp [List.mem_cons.mpr (Or.inr (List.mem_cons.mpr (Or.inr h1)))]

/-- `maxByPrefixLength best l` has the largest prefix_length of `best :: l`. -/
theorem maxByPrefixLength_le (l : List NetworkRow) :
    ∀ best q, q ∈ best :: l → q.prefix_length ≤ (maxByPrefixLength best l).prefix_length := by
  induction l with
  | nil => intro best q hq; simp at hq; simp [maxByPrefixLength, hq]
  | cons n rest ih =>
    intro best q hq
    rw [maxByPrefixLength]
    rcases List.mem_cons.mp hq with h1 | h1
    · subst h1
      refine le_trans ?_ (ih _ _ (List.mem_cons_self _ _))
      split
      · exact le_of_lt (by assumption)
      · exact le_refl _
    · rcases List.mem_cons.mp h1 with h2 | h2
      · subst h2
        refine le_trans ?_ (ih _ _ (List.mem_cons_self _ _))
        split
        · exact le_refl _
        · exact le_of_not_lt (by assumption)
      · exact ih _ _ (List.mem_cons.mpr (Or.inr h2))

/-- C5: atomicity of `Network.create`.  Whenever a call ends in an
exception — invalid CIDR text, attribute validation failure, unique
constraint violation at flush — the returned exception is the original
one and the committed state is exactly the pre-call state (the session
was rolled back, no partial state remains pending); on success the
transaction is committed, so the created row is visible in the returned
state. -/
theorem create_atomic (db : DB) (site_id : Nat) (cidr : String) (attrs : Option PyValue)
    (db' : DB) (r : Except PyErr NetworkRow)
    (hc : Network.create db site_id cidr attrs = (db', r)) :
    (∀ e, r = Except.error e → db' = db) ∧ (∀ obj, r = Except.ok obj → obj ∈ db'.rows) := by
  simp only [Network.create] at hc
  split at hc
  · injection hc with h1 h2; subst h1; subst h2
    exact ⟨fun _ _ => rfl, fun obj h => by cases h⟩
  · split at hc
    · injection hc with h1 h2; subst h1; subst h2
      exact ⟨fun _ _ => rfl, fun obj h => by cases h⟩
    · split at hc
      · split at hc
        · injection hc with h1 h2; subst h1; subst h2
          exact ⟨fun _ _ => rfl, fun obj h => by cases h⟩
        · split at hc
          · -- sups = []
            injection hc with h1 h2; subst h1; subst h2
            constructor
            · intro e h; cases h
            · intro obj h
              injection h with h3; subst h3
              simp only [Network.reparent_subnets, DB.rows, List.map_append, List.map_cons,
                List.map_nil, List.mem_append, List.mem_cons]
              right; left
              simp [reparentFilter]
          · -- sups = s :: ss
            injection hc with h1 h2; subst h1; subst h2
            constructor
            · intro e h; cases h
            · intro obj h
              injection h with h3; subst h3
              simp only [Network.reparent_subnets, DB.rows, List.map_append, List.map_cons,
                List.map_nil, List.mem_append, List.mem_cons]
              right; left
              simp [reparentFilter]
      · injection hc with h1 h2; subst h1; subst h2
        exact ⟨fun _ _ => rfl, fun obj h => by cases h⟩

/-- Witness for C5: creating a duplicate `10.0.0.0/8` over a store that
already holds that row fails on the unique constraint and leaves the
committed state unchanged. -/
theorem create_atomic_witness :
    (Network.create ⟨[net8Site1], 2⟩ 1 "10.0.0.0/8" Option.none).1 = ⟨[net8Site1], 2⟩ :=
  (create_atomic ⟨[net8Site1], 2⟩ 1 "10.0.0.0/8" Option.none
      (Network.create ⟨[net8Site1], 2⟩ 1 "10.0.0.0/8" Option.none).1
      (Network.create ⟨[net8Site1], 2⟩ 1 "10.0.0.0/8" Option.none).2 rfl).1
    (PyErr.integrityError "UNIQUE constraint failed: cidr_idx") rfl

/-- C10: root addresses are never adopted.  `reparent_subnets` run for a
row with null parent_id only re-points rows with `is_ip = false`, and a
successful `Network.create` never changes a pre-existing single-address
root row: the address row (with its null parent_id) is still present
unchanged afterwards. -/
theorem reparent_never_adopts_root_addresses :
    (∀ (rows : List NetworkRow) (self n : NetworkRow),
        self.parent_id = Option.none → n ∈ rows → n.is_ip = true →
        n ∈ Network.reparent_subnets rows self)
    ∧ (∀ (db : DB) (site_id : Nat) (cidr : String) (attrs : Option PyValue)
          (db' : DB) (obj : NetworkRow) (n : NetworkRow),
        (∀ m ∈ db.rows, m.id < db.nextId) →
        Network.create db site_id cidr attrs = (db', Except.ok obj) →
        n ∈ db.rows → n.is_ip = true → n.parent_id = Option.none →
        n ∈ db'.rows) := by
  constructor
  · intro rows self n hp hm hip
    rw [Network.reparent_subnets, List.mem_map]
    exact ⟨n, hm, by simp [reparentFilter, hp, hip]⟩
  · intro db site_id cidr attrs db' obj n hids hc hmem hip hpar
    simp only [Network.create] at hc
    split at hc
    · injection hc with h1 h2; cases h2
    · split at hc
      · injection hc with h1 h2; cases h2
      · split at hc
        · split at hc
          · injection hc with h1 h2; cases h2
          · split at hc
            · -- sups = []
              injection hc with h1 h2; subst h1
              simp only [Network.reparent_subnets, DB.rows, List.map_append, List.map_cons,
                List.map_nil, List.mem_append, List.mem_cons]
              left
              exact List.mem_map.mpr ⟨n, hmem, by simp [reparentFilter, hip]⟩
            · -- sups = s :: ss
              injection hc with h1 h2; subst h1
              have hne : (n.id == db.nextId) = false := by
                rw [beq_eq_false_iff_ne]
                exact Nat.ne_of_lt (hids n hmem)
              simp only [Network.reparent_subnets, DB.rows, List.map_append, List.map_cons,
                List.map_nil, List.mem_append, List.mem_cons, List.map_map]
              left
              exact List.mem_map.mpr ⟨n, hmem, by simp [Function.comp, hne, reparentFilter, hpar]⟩
        · injection hc with h1 h2; cases h2

/-- Witness for C10: a lone `10.0.0.1/32` root address survives, with its
null parent, the later creation of the containing `10.0.0.0/8`. -/
theorem reparent_never_adopts_root_addresses_witness :
    addr32Site1 ∈ (Network.create ⟨[addr32Site1], 2⟩ 1 "10.0.0.0/8" Option.none).1.rows :=
  reparent_never_adopts_root_addresses.2 ⟨[addr32Site1], 2⟩ 1 "10.0.0.0/8" Option.none
    (Network.create ⟨[addr32Site1], 2⟩ 1 "10.0.0.0/8" Option.none).1
    ⟨2, 1, "4", Option.none, 167772160, 184549375, 8, false, "\x7b\x7d"⟩ addr32Site1
    (by decide) rfl (List.mem_singleton.mpr rfl) rfl rfl

/-- C4: tightest-parent selection.  Whenever `Network.create` succeeds
and the discover-mode supernet query (run on the table as it was during
the insert, i.e. including the new row without a parent yet) is
non-empty, the new row's parent_id is the id of an enclosing candidate
of maximal prefix_length; concretely, with `10.0.0.0/8` and
`10.0.0.0/16` already present, a new `10.0.0.0/24` gets the /16 as
parent. -/
theorem create_picks_tightest_parent :
    (∀ (db : DB) (site_id : Nat) (cidr : String) (attrs : Option PyValue)
        (db' : DB) (obj : NetworkRow) (sups : List NetworkRow),
      Network.create db site_id cidr attrs = (db', Except.ok obj) →
      Network.supernets (db.rows ++ [{ obj with parent_id := Option.none }])
          { obj with parent_id := Option.none } false true true = Except.ok sups →
      sups ≠ [] →
      ∃ p, p ∈ sups ∧ obj.parent_id = some p.id ∧
        ∀ q ∈ sups, q.prefix_length ≤ p.prefix_length)
    ∧ (∃ n24 ∈ (createSeq db0 [(1, "10.0.0.0/8"), (1, "10.0.0.0/16"), (1, "10.0.0.0/24")]).rows,
       ∃ n16 ∈ (createSeq db0 [(1, "10.0.0.0/8"), (1, "10.0.0.0/16"), (1, "10.0.0.0/24")]).rows,
         n24.prefix_length = 24 ∧ n16.prefix_length = 16 ∧ n24.parent_id = some n16.id) := by
  constructor
  · intro db site_id cidr attrs db' obj sups hc hs hne
    simp only [Network.create] at hc
    split at hc
    · injection hc with h1 h2; cases h2
    · split at hc
      · injection hc with h1 h2; cases h2
      · split at hc
        · split at hc
          · injection hc with h1 h2; cases h2
          · split at hc
            · -- sups0 = []
              rename_i heq
              injection hc with h1 h2
              injection h2 with h3
              subst h3
              have hEq : Except.ok ([] : List NetworkRow) = Except.ok sups := heq.symm.trans hs
              injection hEq with h4
              exact absurd h4.symm hne
            · -- sups0 = s :: ss
              rename_i s ss heq
              injection hc with h1 h2
              injection h2 with h3
              subst h3
              have hEq : Except.ok (s :: ss) = Except.ok sups := heq.symm.trans hs
              injection hEq with h4
              subst h4
              exact ⟨maxByPrefixLength s ss, maxByPrefixLength_mem ss s, rfl,
                fun q hq => maxByPrefixLength_le ss s q hq⟩
        · injection hc with h1 h2; cases h2
  · decide

/-- Witness for C4: inserting `10.0.0.0/16` over an existing
`10.0.0.0/8` picks a parent from the candidate list `[net8Site1]` with
maximal prefix_length. -/
theorem create_picks_tightest_parent_witness :
    ∃ p, p ∈ [net8Site1] ∧ net16Site1.parent_id = some p.id ∧
      ∀ q ∈ [net8Site1], q.prefix_length ≤ p.prefix_length :=
  create_picks_tightest_parent.1 ⟨[net8Site1], 2⟩ 1 "10.0.0.0/16" Option.none
    (Network.create ⟨[net8Site1], 2⟩ 1 "10.0.0.0/16" Option.none).1 net16Site1 [net8Site1]
    rfl rfl (by simp)

/-! ## The JSON codec round-trip (C6/C7).  The lemmas below show that the
decoder inverts the encoder on every flat string-to-string object. -/


theorem psbClose (t : List Char) : parseStringBody ('"' :: t) = some ([], t) := by
  rw [parseStringBody.eq_def]; simp

theorem psbEscQuote (t : List Char) :
    parseStringBody ('\\' :: '"' :: t) = (parseStringBody t).map (fun p => ('"' :: p.1, p.2)) := by
  rw [parseStringBody.eq_def]; simp

theorem psbEscBackslash (t : List Char) :
    parseStringBody ('\\' :: '\\' :: t) = (parseStringBody t).map (fun p => ('\\' :: p.1, p.2)) := by
  rw [parseStringBody.eq_def]; simp

theorem psbEscB (t : List Char) :
    parseStringBody ('\\' :: 'b' :: t) = (parseStringBody t).map (fun p => (Char.ofNat 8 :: p.1, p.2)) := by
  rw [parseStringBody.eq_def]; simp

theorem psbEscT (t : List Char) :
    parseStringBody ('\\' :: 't' :: t) = (parseStringBody t).map (fun p => (Char.ofNat 9 :: p.1, p.2)) := by
  rw [parseStringBody.eq_def]; simp

theorem psbEscN (t : List Char) :
    parseStringBody ('\\' :: 'n' :: t) = (parseStringBody t).map (fun p => (Char.ofNat 10 :: p.1, p.2)) := by
  rw [parseStringBody.eq_def]; simp

theorem psbEscF (t : List Char) :
    parseStringBody ('\\' :: 'f' :: t) = (parseStringBody t).map (fun p => (Char.ofNat 12 :: p.1, p.2)) := by
  rw [parseStringBody.eq_def]; simp

theorem psbEscR (t : List Char) :
    parseStringBody ('\\' :: 'r' :: t) = (parseStringBody t).map (fun p => (Char.ofNat 13 :: p.1, p.2)) := by
  rw [parseStringBody.eq_def]; simp

theorem psbEscU (h1 h2 h3 h4 : Char) (a b c2 d : Nat) (t : List Char)
    (e1 : hexVal h1 = some a) (e2 : hexVal h2 = some b)
    (e3 : hexVal h3 = some c2) (e4 : hexVal h4 = some d) :
    parseStringBody ('\\' :: 'u' :: h1 :: h2 :: h3 :: h4 :: t)
      = (parseStringBody t).map (fun p => (Char.ofNat (4096 * a + 256 * b + 16 * c2 + d) :: p.1, p.2)) := by
  rw [parseStringBody.eq_def]; simp [e1, e2, e3, e4]

theorem hexVal_hexDigitChar (m : Nat) (hm : m < 16) : hexVal (hexDigitChar m) = some m := by
  interval_cases m <;> decide

theorem psbU00 (n : Nat) (hn : n < 32) (t : List Char) :
    parseStringBody ('\\' :: 'u' :: '0' :: '0' :: hexDigitChar (n / 16) :: hexDigitChar (n % 16) :: t)
      = (parseStringBody t).map (fun p => (Char.ofNat n :: p.1, p.2)) := by
  rw [psbEscU '0' '0' (hexDigitChar (n / 16)) (hexDigitChar (n % 16)) 0 0 (n / 16) (n % 16) t
    (by decide) (by decide) (hexVal_hexDigitChar _ (by omega)) (hexVal_hexDigitChar _ (by omega))]
  have h : 4096 * 0 + 256 * 0 + 16 * (n / 16) + n % 16 = n := by omega
  rw [h]

theorem psbPlain (c : Char) (t : List Char) (h1 : ¬c = '"') (h2 : ¬c = '\\')
    (h3 : ¬c.toNat < 32) :
    parseStringBody (c :: t) = (parseStringBody t).map (fun p => (c :: p.1, p.2)) := by
  rw [parseStringBody.eq_def]; simp [h1, h2, h3]

theorem parseStringBody_escapeChar (c : Char) (t : List Char) :
    parseStringBody (escapeChar c ++ t) = (parseStringBody t).map (fun p => (c :: p.1, p.2)) := by
  by_cases h1 : c = '"'
  · subst h1
    show parseStringBody ('\\' :: '"' :: t) = _
    exact psbEscQuote t
  · by_cases h2 : c = '\\'
    · subst h2
      show parseStringBody ('\\' :: '\\' :: t) = _
      exact psbEscBackslash t
    · by_cases h3 : c = Char.ofNat 8
      · subst h3
        have he : escapeChar (Char.ofNat 8) = ['\\', 'b'] := by simp [escapeChar]
        rw [he]
        exact psbEscB t
      · by_cases h4 : c = Char.ofNat 9
        · subst h4
          have he : escapeChar (Char.ofNat 9) = ['\\', 't'] := by simp [escapeChar]
          rw [he]
          exact psbEscT t
        · by_cases h5 : c = Char.ofNat 10
          · subst h5
            have he : escapeChar (Char.ofNat 10) = ['\\', 'n'] := by simp [escapeChar]
            rw [he]
            exact psbEscN t
          · by_cases h6 : c = Char.ofNat 12
            · subst h6
              have he : escapeChar (Char.ofNat 12) = ['\\', 'f'] := by simp [escapeChar]
              rw [he]
              exact psbEscF t
            · by_cases h7 : c = Char.ofNat 13
              · subst h7
                have he : escapeChar (Char.ofNat 13) = ['\\', 'r'] := by simp [escapeChar]
                rw [he]
                exact psbEscR t
              · by_cases h8 : c.toNat < 32
                · have he : escapeChar c
                      = ['\\', 'u', '0', '0', hexDigitChar (c.toNat / 16), hexDigitChar (c.toNat % 16)] := by
                    simp [escapeChar, h1, h2, h3, h4, h5, h6, h7, h8]
                  rw [he]
                  show parseStringBody
                    ('\\' :: 'u' :: '0' :: '0' :: hexDigitChar (c.toNat / 16) :: hexDigitChar (c.toNat % 16) :: t) = _
                  rw [psbU00 c.toNat h8 t, Char.ofNat_toNat]
                · have he : escapeChar c = [c] := by
                    simp [escapeChar, h1, h2, h3, h4, h5, h6, h7, h8]
                  rw [he]
                  exact psbPlain c t h1 h2 h8

theorem parseStringBody_escapeChars (cs : List Char) :
    ∀ rest, parseStringBody (escapeChars cs ++ '"' :: rest) = some (cs, rest) := by
  induction cs with
  | nil => intro rest; exact psbClose rest
  | cons c cs ih =>
    intro rest
    show parseStringBody ((escapeChar c ++ escapeChars cs) ++ '"' :: rest) = _
    rw [List.append_assoc, parseStringBody_escapeChar, ih]
    rfl

theorem parseJString_dquote (l : List Char) :
    parseJString ('"' :: l) = (parseStringBody l).map (fun p => (String.mk p.1, p.2)) := rfl

theorem parseJString_space (l : List Char) : parseJString (' ' :: l) = parseJString l := rfl

theorem parseJString_encode (k : String) (t : List Char) :
    parseJString (encodeJString k ++ t) = some (k, t) := by
  show parseJString ('"' :: ((escapeChars k.data ++ ['"']) ++ t)) = some (k, t)
  rw [parseJString_dquote, List.append_assoc, List.singleton_append,
    parseStringBody_escapeChars]
  rfl

theorem skipWS_colon (l : List Char) : skipWS (':' :: l) = ':' :: l := rfl

theorem skipWS_comma (l : List Char) : skipWS (',' :: l) = ',' :: l := rfl

theorem skipWS_rbrace (l : List Char) : skipWS (rightBrace :: l) = rightBrace :: l := rfl

theorem parseMembersF_space (f : Nat) (l : List Char) :
    parseMembersF (f + 1) (' ' :: l) = parseMembersF (f + 1) l := by
  simp only [parseMembersF, parseJString_space]

theorem parseMembersF_encode (ps : List (String × String)) :
    ∀ (fuel : Nat) (rest : List Char), ps ≠ [] → ps.length ≤ fuel →
      parseMembersF fuel (membersChars ps ++ rightBrace :: rest) = some (ps, rest) := by
  induction ps with
  | nil => intro fuel rest h _; exact absurd rfl h
  | cons kv ps ih =>
    intro fuel rest _ hlen
    obtain ⟨f, rfl⟩ : ∃ f, fuel = f + 1 := ⟨fuel - 1, by simp at hlen; omega⟩
    cases ps with
    | nil =>
      have h0 : membersChars [kv] ++ rightBrace :: rest
          = encodeJString kv.1 ++ (':' :: ' ' :: (encodeJString kv.2 ++ rightBrace :: rest)) := by
        simp [membersChars, memberChars, List.append_assoc]
      rw [h0]
      simp only [parseMembersF, parseJString_encode, skipWS_colon, parseJString_space,
        skipWS_rbrace]
      simp [rightBrace]
    | cons kv2 ps2 =>
      have h0 : membersChars (kv :: kv2 :: ps2) ++ rightBrace :: rest
          = encodeJString kv.1 ++ (':' :: ' ' ::
              (encodeJString kv.2 ++ (',' :: ' ' :: (membersChars (kv2 :: ps2) ++ rightBrace :: rest)))) := by
        simp [membersChars, memberChars, List.append_assoc]
      obtain ⟨f2, rfl⟩ : ∃ f2, f = f2 + 1 := ⟨f - 1, by simp at hlen; omega⟩
      rw [h0, parseMembersF]
      simp only [parseJString_encode, skipWS_colon, parseJString_space, skipWS_comma,
        parseMembersF_space]
      rw [ih (f2 + 1) rest (by simp) (by simp at hlen ⊢; omega)]
      simp

theorem membersChars_length (ps : List (String × String)) :
    ps.length ≤ (membersChars ps).length + 1 := by
  induction ps with
  | nil => simp
  | cons kv ps ih =>
    cases ps with
    | nil => simp [membersChars, memberChars, encodeJString]
    | cons kv2 ps2 =>
      have h : membersChars (kv :: kv2 :: ps2)
          = memberChars kv ++ ',' :: ' ' :: membersChars (kv2 :: ps2) := rfl
      rw [h]
      simp only [List.length_cons, List.length_append] at ih ⊢
      omega

theorem parseObject_lbrace_dq (l : List Char) :
    parseObject (leftBrace :: '"' :: l) = parseMembersF ('"' :: l).length ('"' :: l) := rfl

theorem parseObject_encode (ps : List (String × String)) :
    parseObject (json_dumps_chars ps) = some (ps, []) := by
  cases ps with
  | nil => rfl
  | cons kv ps2 =>
    obtain ⟨T, hT⟩ : ∃ T, membersChars (kv :: ps2) = '"' :: T := by
      cases ps2 with
      | nil =>
        exact ⟨(escapeChars kv.1.data ++ ['"']) ++ ':' :: ' ' :: encodeJString kv.2, rfl⟩
      | cons kv3 ps3 =>
        exact ⟨(escapeChars kv.1.data ++ ['"']) ++ ':' :: ' ' :: encodeJString kv.2
          ++ ',' :: ' ' :: membersChars (kv3 :: ps3), by simp [membersChars, memberChars, encodeJString]⟩
    show parseObject (leftBrace :: (membersChars (kv :: ps2) ++ [rightBrace])) = some (kv :: ps2, [])
    rw [hT, List.cons_append, parseObject_lbrace_dq, ← List.cons_append, ← hT]
    have hrb : membersChars (kv :: ps2) ++ [rightBrace]
        = membersChars (kv :: ps2) ++ rightBrace :: [] := rfl
    rw [hrb]
    refine parseMembersF_encode (kv :: ps2) _ [] (by simp) ?_
    have h1 := membersChars_length (kv :: ps2)
    simp only [List.length_append, List.length_cons, List.length_nil] at h1 ⊢
    omega

theorem json_loads_dumps (ps : List (String × String)) :
    json_loads (json_dumps ps) = some ps := by
  have h : json_loads (String.mk (json_dumps_chars ps))
      = (match parseObject (json_dumps_chars ps) with
         | some (ps2, rest) => if skipWS rest = [] then some ps2 else Option.none
         | Option.none => Option.none) := rfl
  show json_loads (String.mk (json_dumps_chars ps)) = some ps
  rw [h, parseObject_encode]
  rfl

theorem validateAttributes_strings (pairs : List (String × String)) :
    validateAttributes (pairs.map (fun kv => (PyValue.str kv.1, PyValue.str kv.2)))
      = Except.ok pairs := by
  induction pairs with
  | nil => rfl
  | cons kv ps ih =>
    show validateAttributes ((PyValue.str kv.1, PyValue.str kv.2)
        :: ps.map (fun kv => (PyValue.str kv.1, PyValue.str kv.2))) = Except.ok (kv :: ps)
    rw [validateAttributes, ih]
    rfl

theorem validateAttributes_bad :
    ∀ kvs : List (PyValue × PyValue),
      (∃ kv ∈ kvs, (∀ s, kv.1 ≠ PyValue.str s) ∨ (∀ s, kv.2 ≠ PyValue.str s)) →
      ∃ msg, validateAttributes kvs = Except.error (PyErr.valueError msg) := by
  intro kvs
  induction kvs with
  | nil => intro h; obtain ⟨kv, hm, _⟩ := h; simp at hm
  | cons kv0 rest ih =>
    intro h
    obtain ⟨kv, hm, hbad⟩ := h
    rcases List.mem_cons.mp hm with heq | hm2
    · subst heq
      rcases kv with ⟨k, v⟩
      cases k <;> try exact ⟨_, rfl⟩
      cases v <;> try exact ⟨_, rfl⟩
      rcases hbad with hb | hb
      · exact absurd rfl (hb _)
      · exact absurd rfl (hb _)
    · obtain ⟨msg, hmsg⟩ := ih ⟨kv, hm2, hbad⟩
      rcases kv0 with ⟨k0, v0⟩
      cases k0 <;> try exact ⟨_, rfl⟩
      cases v0 <;> try exact ⟨_, rfl⟩
      refine ⟨msg, ?_⟩
      rw [validateAttributes, hmsg]
      rfl

/-- C6: attributes round-trip.  For every mapping of string keys to
string values, assigning it through the `attributes` setter stores the
serialized blob, and reading the property back through the getter yields
an equal mapping. -/
theorem attributes_round_trip (row : NetworkRow) (pairs : List (String × String)) :
    Network.setAttributes (PyValue.dict (pairs.map (fun kv => (PyValue.str kv.1, PyValue.str kv.2))))
      = Except.ok (json_dumps pairs)
    ∧ Network.getAttributes { row with _attributes := json_dumps pairs } = some pairs := by
  constructor
  · show (validateAttributes (pairs.map (fun kv => (PyValue.str kv.1, PyValue.str kv.2)))).map json_dumps
      = Except.ok (json_dumps pairs)
    rw [validateAttributes_strings]
    rfl
  · show json_loads (json_dumps pairs) = some pairs
    exact json_loads_dumps pairs

/-- C7: attribute-setter validation.  A non-dict value is rejected with
`TypeError "Expected dict."`; a dict containing a non-string key or a
non-string value is rejected with a `ValueError` (so nothing is stored —
the setter returns no blob); a dict of strings is serialized and
stored. -/
theorem attributes_setter_validation :
    (∀ v : PyValue, (∀ kvs, v ≠ PyValue.dict kvs) →
       Network.setAttributes v = Except.error (PyErr.typeError "Expected dict."))
    ∧ (∀ kvs : List (PyValue × PyValue),
       (∃ kv ∈ kvs, (∀ s, kv.1 ≠ PyValue.str s) ∨ (∀ s, kv.2 ≠ PyValue.str s)) →
       ∃ msg, Network.setAttributes (PyValue.dict kvs) = Except.error (PyErr.valueError msg))
    ∧ (∀ pairs : List (String × String),
       Network.setAttributes (PyValue.dict (pairs.map (fun kv => (PyValue.str kv.1, PyValue.str kv.2))))
         = Except.ok (json_dumps pairs)) := by
  refine ⟨?_, ?_, ?_⟩
  · intro v hv
    cases v with
    | dict kvs => exact absurd rfl (hv kvs)
    | str s => rfl
    | int n => rfl
    | bool b => rfl
    | list xs => rfl
    | none => rfl
  · intro kvs h
    obtain ⟨msg, hmsg⟩ := validateAttributes_bad kvs h
    refine ⟨msg, ?_⟩
    show (validateAttributes kvs).map json_dumps = Except.error (PyErr.valueError msg)
    rw [hmsg]
    rfl
  · intro pairs
    show (validateAttributes (pairs.map (fun kv => (PyValue.str kv.1, PyValue.str kv.2)))).map json_dumps
      = Except.ok (json_dumps pairs)
    rw [validateAttributes_strings]
    rfl

/-- Witness for C7: an integer value raises the type error; a dict with
an integer key raises a value error. -/
theorem attributes_setter_validation_witness :
    Network.setAttributes (PyValue.int 0) = Except.error (PyErr.typeError "Expected dict.")
    ∧ (∃ msg, Network.setAttributes (PyValue.dict [(PyValue.int 1, PyValue.str "x")])
        = Except.error (PyErr.valueError msg)) :=
  ⟨attributes_setter_validation.1 (PyValue.int 0) (fun kvs h => by cases h),
   attributes_setter_validation.2.1 [(PyValue.int 1, PyValue.str "x")]
     ⟨(PyValue.int 1, PyValue.str "x"), List.mem_singleton.mpr rfl,
      Or.inl (fun s h => by cases h)⟩⟩
